import Mathlib

/-!
Shallow embedding of the dashboard progress-indicator scripts of the
repository (progress.js, charts.js, bargraph.js, vault-dashboard.js),
together with theorems settling the frozen claims about them.

Conventions of the embedding:
* JS numbers are modelled by exact rationals `ℚ`; `Math.round` becomes
  `jround` (round half towards `+∞`, which is JS semantics).
* SVG stroke offsets are stored as the ratio `offset / circumference`:
  the scripts only ever write multiples of the fixed positive constant
  `circumference = 2 * Math.PI * 85`, so `offset = circumference * offFrac`
  and every exactness statement about offsets is phrased on `offFrac`.
* `requestAnimationFrame` scheduling is modelled by an explicit queue of
  active animation runs processed in registration order at each frame
  timestamp; a run registered at time `s` is dormant at frames before `s`.
* `parseFloat` results are `Option ℚ`, `none` standing for `NaN`.
* The percentage label text always has the shape `<integer>%` (the
  scripts only ever assign `Math.round(v) + '%'`), so the label is
  modelled by the integer before the constant percent suffix.
-/

/-- JS `Math.round x` rounds half towards positive infinity: `⌊x + 1/2⌋`. -/
def jround (x : ℚ) : ℤ := ⌊x + 1/2⌋

/-- The ease-out cubic curve used by every animation in the repository:
`easeOut p = 1 - (1 - p)^3` (source: `const easeOut = 1 - Math.pow(1 - progress, 3)`). -/
def easeOut (p : ℚ) : ℚ := 1 - (1 - p)^3

/-- The number written to `.progress-percentage` (the text is
`Math.round(value) + '%'` in progress.js; the percent suffix is constant,
so the label is modelled by the rounded integer). -/
def labelVal (v : ℚ) : ℤ := jround v

/-- The four-bucket progress level of progress.js (both
`initializeProgressCircle` and `updateProgressCircle` contain the same
`if (v >= 100) ... else if (v >= 70) ... else if (v >= 40) ...` chain). -/
inductive Level where
  | low
  | medium
  | high
  | complete
deriving DecidableEq, Repr

/-- Level chain of progress.js:
complete when `100 ≤ v`, high when `70 ≤ v`, medium when `40 ≤ v`, else low. -/
def progressLevel (v : ℚ) : Level :=
  if 100 ≤ v then .complete
  else if 70 ≤ v then .high
  else if 40 ≤ v then .medium
  else .low

/-- The same level chain as written (a second time) in
`animateVaultProgress` of vault-dashboard.js (src/unnamed/part_002). -/
def vaultLevel (v : ℚ) : Level :=
  if 100 ≤ v then .complete
  else if 70 ≤ v then .high
  else if 40 ≤ v then .medium
  else .low

/-- The mutable DOM state of one progress widget. `dashArray` and
`offFrac` are the circle styles divided by the circumference (`none`
until first written); `label` is the text content of the percentage
element; `level` is the `data-progress-level` attribute of the container. -/
structure Dom where
  dashArray : Option ℚ
  offFrac : Option ℚ
  label : ℤ
  level : Option Level
deriving DecidableEq, Repr

/-- One animation run of `animateProgress`: registered by a
`requestAnimationFrame` call at time `start` (its `startTime`), animating
to `target` over the fixed `duration = 1000`. `id` is a ghost identifier
used only to attribute trace writes to runs. -/
structure Run where
  id : ℕ
  start : ℚ
  target : ℚ
deriving DecidableEq, Repr

/-- A single DOM write performed by a frame callback, for trace analysis:
which run wrote, at which frame timestamp, and the label text and offset
fraction it wrote. -/
structure FrameWrite where
  runId : ℕ
  time : ℚ
  label : ℤ
  offFrac : ℚ
deriving DecidableEq, Repr

/-- The body of `updateProgress` in `animateProgress` (progress.js), run
once per frame for one run. Faithful to the source:
`progress = Math.min(elapsed / duration, 1)`, `startProgress = 0` (the
run always interpolates from 0, not from the displayed value),
`currentValue = startProgress + (targetProgress - startProgress) * easeOut`.
While `progress < 1` it writes the interpolated offset and label and
re-registers itself; otherwise it writes the exact final values and stops.
A run whose registration time is still in the future has not fired yet. -/
def applyRun (t : ℚ) (dom : Dom) (r : Run) : Dom × List FrameWrite × Option Run :=
  if t < r.start then (dom, [], some r)
  else
    let progress := min ((t - r.start) / 1000) 1
    let startProgress : ℚ := 0
    let currentValue := startProgress + (r.target - startProgress) * easeOut progress
    if progress < 1 then
      ({ dom with offFrac := some (1 - currentValue / 100), label := labelVal currentValue },
       [⟨r.id, t, labelVal currentValue, 1 - currentValue / 100⟩],
       some r)
    else
      ({ dom with offFrac := some (1 - r.target / 100), label := labelVal r.target },
       [⟨r.id, t, labelVal currentValue, 1 - currentValue / 100⟩,
        ⟨r.id, t, labelVal r.target, 1 - r.target / 100⟩],
       none)

/-- Process one frame timestamp: the pending callbacks run in
registration order, each re-registering (in the same order) if still
active, exactly as `requestAnimationFrame` queues them. -/
def stepFrame (t : ℚ) (dom : Dom) : List Run → Dom × List FrameWrite × List Run
  | [] => (dom, [], [])
  | r :: rs =>
    let s1 := applyRun t dom r
    let s2 := stepFrame t s1.1 rs
    (s2.1, s1.2.1 ++ s2.2.1,
      match s1.2.2 with
      | some r0 => r0 :: s2.2.2
      | none => s2.2.2)

/-- Process a whole sequence of frame timestamps. -/
def runFrames (dom : Dom) (runs : List Run) : List ℚ → Dom × List FrameWrite × List Run
  | [] => (dom, [], runs)
  | t :: ts =>
    let s1 := stepFrame t dom runs
    let s2 := runFrames s1.1 s1.2.2 ts
    (s2.1, s1.2.1 ++ s2.2.1, s2.2.2)

/-- The page environment a widget script queries: whether each element
the script looks up exists, the `parseFloat` result of the input element
(`none` models `NaN`), and the widget DOM state. -/
structure Page where
  hasInput : Bool
  inputParsed : Option ℚ
  hasCircle : Bool
  hasLabel : Bool
  hasContainer : Bool
  dom : Dom
deriving DecidableEq, Repr

/-- Source line `const progressValue = parseFloat(progressInput.value) || 0`: `NaN`
becomes 0 (and `0 || 0` is 0); any other parsed number is used as-is. -/
def progressValueOf (parsed : Option ℚ) : ℚ := parsed.getD 0

/-- Function `initializeProgressCircle` of progress.js, run at `DOMContentLoaded`
time `now`. Returns early (leaving the page untouched, scheduling
nothing) when the input element or any of circle, percentage text and
container is missing; otherwise sets the dash geometry to the full
circumference, writes the `data-progress-level` attribute from the input
value, and schedules an animation run via `setTimeout(..., 300)`. It
never writes the label text. -/
def initProgressCircle (now : ℚ) (p : Page) : Page × Option Run :=
  if ¬ p.hasInput then (p, none)
  else
    let progressValue := progressValueOf p.inputParsed
    if ¬ p.hasCircle ∨ ¬ p.hasLabel ∨ ¬ p.hasContainer then (p, none)
    else
      ({ p with dom := { p.dom with
            dashArray := some 1,
            offFrac := some 1,
            level := some (progressLevel progressValue) } },
       some { id := 0, start := now + 300, target := progressValue })

/-- Function `updateProgressCircle(newProgress)` of progress.js, called at time
`now` (`rid` is the ghost identifier of the run it starts). Returns
early when circle, percentage text or container is missing; otherwise
writes the level attribute computed from `newProgress` (unclamped, once,
before the animation) and starts an animation run with target exactly
`newProgress`. -/
def updateProgressCircle (rid : ℕ) (v now : ℚ) (p : Page) : Page × Option Run :=
  if ¬ p.hasCircle ∨ ¬ p.hasLabel ∨ ¬ p.hasContainer then (p, none)
  else
    ({ p with dom := { p.dom with level := some (progressLevel v) } },
     some { id := rid, start := now, target := v })

/-- Function `updateProgressTextColor` of vault-dashboard.js (src/unnamed/part_002):
picks the text colour from the value it is handed. -/
def textColorOf (progress : ℚ) : String :=
  if 100 ≤ progress then "#192EFF"
  else if 70 ≤ progress then "#19FF5A"
  else if 40 ≤ progress then "#FFCE19"
  else "#FF2B2B"

/-- The per-frame counter value of `animateVaultProgress`
(src/unnamed/part_002, duration 2000):
`current = Math.round(targetProgress * easeOut(min(elapsed / 2000, 1)))`. -/
def vaultFrameValue (target start t : ℚ) : ℤ :=
  jround (target * easeOut (min ((t - start) / 2000) 1))

/-- The colour `animateVaultProgress` writes on that frame: it passes the
rounded interpolated value `current` — not the target — to
`updateProgressTextColor`. -/
def vaultFrameColor (target start t : ℚ) : String :=
  textColorOf ((vaultFrameValue target start t : ℤ) : ℚ)

/-- The seven completion-criteria keys of `calculateProgress` (charts.js). -/
inductive CKey where
  | accounts
  | devices
  | contacts
  | estates
  | documents
  | family_knows
  | care_relations
deriving DecidableEq, Repr

/-- The `weight` field of the `criteria` table in `calculateProgress`. -/
def weightOf : CKey → ℚ
  | .accounts => 0.25
  | .devices => 0.15
  | .contacts => 0.20
  | .estates => 0.15
  | .documents => 0.15
  | .family_knows => 0.05
  | .care_relations => 0.05

/-- The `target` field of the `criteria` table in `calculateProgress`. -/
def targetOf : CKey → ℚ
  | .accounts => 10
  | .devices => 5
  | .contacts => 5
  | .estates => 3
  | .documents => 5
  | .family_knows => 3
  | .care_relations => 1

/-- Keys as `Object.keys(criteria)` yields them, in source (insertion) order. -/
def criteriaKeys : List CKey :=
  [.accounts, .devices, .contacts, .estates, .documents, .family_knows, .care_relations]

/-- One loop iteration of `calculateProgress`:
`itemProgress = Math.min(count / target, 1) * weight` with
`count = counts[key] || 0` (an absent key contributes 0). The counts map
is modelled as `CKey → Option ℚ`, `none` meaning the key is absent. -/
def itemProgress (counts : CKey → Option ℚ) (k : CKey) : ℚ :=
  min ((counts k).getD 0 / targetOf k) 1 * weightOf k

/-- Function `calculateProgress(counts)` of charts.js: sums the per-category
contributions and returns `Math.round(totalProgress * 100)`. -/
def calculateProgress (counts : CKey → Option ℚ) : ℤ :=
  jround ((criteriaKeys.foldl (fun acc k => acc + itemProgress counts k) 0) * 100)

/-- Split `key.split('_')` on the character list: JS split semantics
(`"" → [""]`, leading/trailing/doubled separators give empty words). -/
def splitOnChar (sep : Char) : List Char → List (List Char)
  | [] => [[]]
  | c :: cs =>
    match splitOnChar sep cs with
    | [] => [[]]
    | w :: ws => if c = sep then [] :: w :: ws else (c :: w) :: ws

/-- Source expression `word.charAt(0).toUpperCase() + word.slice(1)` (bargraph.js
`formatCategoryLabel`); on the empty word both halves are empty. -/
def capitalizeFirst : List Char → List Char
  | [] => []
  | c :: cs => c.toUpper :: cs

/-- Join `.join(' ')`: interpose single spaces between words. -/
def joinSpace : List (List Char) → List Char
  | [] => []
  | [w] => w
  | w :: ws => w ++ ' ' :: joinSpace ws

/-- Function `formatCategoryLabel` of bargraph.js: split on underscores,
capitalize each word, join with spaces. -/
def formatCategoryLabel (key : String) : String :=
  String.mk (joinSpace ((splitOnChar '_' key.data).map capitalizeFirst))

/-- One `{label, value}` item handed to `createBarChart`. -/
structure BarItem where
  label : String
  value : ℚ
deriving DecidableEq, Repr

/-- One rendered `.bar-fill` row: its label, raw value (the `.bar-count`
text) and the percentage stored in its `data-value` attribute. -/
structure RenderedBar where
  label : String
  value : ℚ
  pct : ℚ
deriving DecidableEq, Repr

/-- The data pipeline of `createAccountCategoriesChart` (bargraph.js):
`Object.entries(categories).map(...).filter(v > 0).sort((a, b) => b.value - a.value).slice(0, 10)`.
The JS comparator `b.value - a.value` sorts by value in non-increasing
order; `Object.entries` is modelled as an association list. -/
def accountCategoriesData (categories : List (String × ℚ)) : List BarItem :=
  ((((categories.map fun kv => ({ label := formatCategoryLabel kv.1, value := kv.2 } : BarItem))
      |>.filter fun item => 0 < item.value)
      |>.mergeSort fun a b => decide (b.value ≤ a.value))
      |>.take 10)

/-- Value `Math.max(...data.map(d => d.value))`: of an empty spread this is
`-Infinity`; the scripts only ever compare it against 0 (and only reach
the comparison through a per-item loop, which is vacuous on empty data),
so any negative stand-in is observationally faithful. -/
def jsMaxValue : List ℚ → ℚ
  | [] => -1
  | x :: xs => xs.foldl max x

/-- The per-bar rendering loop of `createBarChart`:
`percentage = maxValue > 0 ? (item.value / maxValue) * 100 : 0`, with
`maxValue` the maximum of the values of the data handed in. -/
def renderBars (data : List BarItem) : List RenderedBar :=
  let maxValue := jsMaxValue (data.map fun item => item.value)
  data.map fun item =>
    { label := item.label, value := item.value,
      pct := if 0 < maxValue then item.value / maxValue * 100 else 0 }

/-- Function `createAccountCategoriesChart(containerId, categories)`: the bars the
call renders (its `createBarChart(containerId, data, ...)` call with the
pipeline data and no `maxValue` option). -/
def createAccountCategoriesChart (categories : List (String × ℚ)) : List RenderedBar :=
  renderBars (accountCategoriesData categories)

/-- The interpolated value a run shows at frame time `t`:
`startProgress + (target - startProgress) * easeOut(progress)` with the
hard-coded `startProgress = 0`. -/
def runShown (r : Run) (t : ℚ) : ℚ :=
  r.target * easeOut (min ((t - r.start) / 1000) 1)

/-- A widget DOM in its pristine state (no style set, label number 0). -/
def dom0 : Dom := { dashArray := none, offFrac := none, label := 0, level := none }

/-- A page on which every element the scripts query exists and the input
parses to 0. -/
def fullPage : Page :=
  { hasInput := true, inputParsed := some 0, hasCircle := true, hasLabel := true,
    hasContainer := true, dom := dom0 }

/-- A page whose arc element is missing. -/
def noCirclePage : Page :=
  { hasInput := true, inputParsed := some 50, hasCircle := false, hasLabel := true,
    hasContainer := true, dom := dom0 }

/-- A complete page whose server-rendered label currently shows 73. -/
def stalePage : Page :=
  { hasInput := true, inputParsed := some 0, hasCircle := true, hasLabel := true,
    hasContainer := true, dom := { dashArray := none, offFrac := none, label := 73, level := none } }

/-- Concrete categories map used to instantiate the bar-chart theorems. -/
def exCats : List (String × ℚ) := [("bank", 5), ("email_apps", 0), ("social", 7)]

/-- Concrete counts map (with one absent key) used to instantiate the
`calculateProgress` theorem. -/
def exCounts : CKey → Option ℚ
  | .care_relations => none
  | _ => some 5

theorem stepFrame_cons (t : ℚ) (d : Dom) (r : Run) (rs : List Run) :
    stepFrame t d (r :: rs) =
      ((stepFrame t (applyRun t d r).1 rs).1,
       (applyRun t d r).2.1 ++ (stepFrame t (applyRun t d r).1 rs).2.1,
       match (applyRun t d r).2.2 with
       | some r0 => r0 :: (stepFrame t (applyRun t d r).1 rs).2.2
       | none => (stepFrame t (applyRun t d r).1 rs).2.2) := rfl

theorem runFrames_cons (d : Dom) (runs : List Run) (t : ℚ) (ts : List ℚ) :
    runFrames d runs (t :: ts) =
      ((runFrames (stepFrame t d runs).1 (stepFrame t d runs).2.2 ts).1,
       (stepFrame t d runs).2.1 ++
         (runFrames (stepFrame t d runs).1 (stepFrame t d runs).2.2 ts).2.1,
       (runFrames (stepFrame t d runs).1 (stepFrame t d runs).2.2 ts).2.2) := rfl

/-- A run registered in the future does nothing at this frame
(its `requestAnimationFrame` callback has not fired yet). -/
theorem applyRun_dormant (t : ℚ) (r : Run) (h : t < r.start) (d : Dom) :
    applyRun t d r = (d, [], some r) := by
  simp [applyRun, h]

/-- A frame strictly before the duration has elapsed writes the eased
interpolated value and keeps the run active. -/
theorem applyRun_mid (t : ℚ) (r : Run) (h1 : r.start ≤ t) (h2 : t < r.start + 1000)
    (d : Dom) :
    applyRun t d r =
      ({ d with offFrac := some (1 - runShown r t / 100), label := labelVal (runShown r t) },
       [⟨r.id, t, labelVal (runShown r t), 1 - runShown r t / 100⟩], some r) := by
  have hnl : ¬ t < r.start := not_lt.mpr h1
  have hdiv : (t - r.start) / 1000 < 1 := by
    rw [div_lt_one (by norm_num : (0:ℚ) < 1000)]; linarith
  have hp : min ((t - r.start) / 1000) 1 < 1 := min_lt_iff.mpr (Or.inl hdiv)
  simp [applyRun, hnl, hp, runShown]

/-- A frame at or past `start + duration` writes the exact final values
and deactivates the run (it does not re-register itself). -/
theorem applyRun_done (t : ℚ) (r : Run) (h : r.start + 1000 ≤ t) (d : Dom) :
    applyRun t d r =
      ({ d with offFrac := some (1 - r.target / 100), label := labelVal r.target },
       [⟨r.id, t, labelVal r.target, 1 - r.target / 100⟩,
        ⟨r.id, t, labelVal r.target, 1 - r.target / 100⟩], none) := by
  have hnl : ¬ t < r.start := not_lt.mpr (by linarith)
  have hmin : min ((t - r.start) / 1000) 1 = 1 := by
    refine min_eq_right ?_
    rw [le_div_iff₀ (by norm_num : (0:ℚ) < 1000)]; linarith
  have hp : ¬ (min ((t - r.start) / 1000) 1 < 1) := by rw [hmin]; exact lt_irrefl 1
  norm_num [applyRun, hnl, hp, hmin, easeOut]

/-- Before `start + duration`, a run survives the frame. -/
theorem applyRun_active (t : ℚ) (r : Run) (h2 : t < r.start + 1000) (d : Dom) :
    (applyRun t d r).2.2 = some r := by
  by_cases h1 : t < r.start
  · rw [applyRun_dormant t r h1 d]
  · rw [applyRun_mid t r (not_lt.mp h1) h2 d]

/-- No frame callback ever touches the `data-progress-level` attribute. -/
theorem applyRun_level (t : ℚ) (d : Dom) (r : Run) :
    (applyRun t d r).1.level = d.level := by
  simp only [applyRun]
  split_ifs <;> rfl

theorem stepFrame_level (t : ℚ) : ∀ (runs : List Run) (d : Dom),
    (stepFrame t d runs).1.level = d.level
  | [], _ => rfl
  | r :: rs, d =>
    (stepFrame_level t rs (applyRun t d r).1).trans (applyRun_level t d r)

theorem runFrames_level : ∀ (ts : List ℚ) (runs : List Run) (d : Dom),
    (runFrames d runs ts).1.level = d.level
  | [], _, _ => rfl
  | t :: ts, runs, d =>
    (runFrames_level ts (stepFrame t d runs).2.2 (stepFrame t d runs).1).trans
      (stepFrame_level t runs d)

/-- With no active run, frames change nothing: the page settles. -/
theorem runFrames_noRuns : ∀ (ts : List ℚ) (d : Dom), runFrames d [] ts = (d, [], [])
  | [], _ => rfl
  | t :: ts, d => by
    rw [runFrames_cons]
    have h0 : stepFrame t d [] = (d, [], []) := rfl
    rw [h0]
    simp [runFrames_noRuns ts d]

/-- A single animation run settles: as soon as the frame sequence
contains a timestamp at or past `start + duration`, the DOM holds the
exact rounded target and offset and the run has stopped re-registering. -/
theorem runFrames_single_settles (r : Run) : ∀ (ts : List ℚ) (d : Dom),
    (∃ t ∈ ts, r.start + 1000 ≤ t) →
    (runFrames d [r] ts).1.label = labelVal r.target ∧
    (runFrames d [r] ts).1.offFrac = some (1 - r.target / 100) ∧
    (runFrames d [r] ts).2.2 = [] := by
  intro ts
  induction ts with
  | nil => intro d h; simp at h
  | cons t ts ih =>
    intro d h
    by_cases hdone : r.start + 1000 ≤ t
    · rw [runFrames_cons]
      rw [stepFrame_cons]
      simp only [applyRun_done t r hdone d, stepFrame]
      rw [runFrames_noRuns ts]
      exact ⟨rfl, rfl, rfl⟩
    · obtain ⟨t0, ht0, hle⟩ := h
      have ht0' : t0 ∈ ts := by
        rcases List.mem_cons.mp ht0 with rfl | h'
        · exact absurd hle hdone
        · exact h'
      rw [runFrames_cons, stepFrame_cons]
      simp only [applyRun_active t r (not_le.mp hdone) d, stepFrame]
      exact ih (applyRun t d r).1 ⟨t0, ht0', hle⟩

/-- Claim C1, counterexample. The claim says a new `setProgress` run
invalidates the prior run before or during its own first frame, so that
no frame of the old run is written after the first frame of the new run
and at most one run schedules frames at a time. The code has no
cancellation: with run 0 (target 30, started at 0) and run 1 (target 90,
started at 50), both runs are still active after the shared frame at 100,
and run 0 writes again at frame 200 — after run 1's first write at 100. -/
theorem c1_counterexample :
    ((runFrames dom0 [⟨0, 0, 30⟩, ⟨1, 50, 90⟩] [100, 200]).2.1).map
        (fun w => (w.runId, w.time)) = [(0, 100), (1, 100), (0, 200), (1, 200)] ∧
    ((runFrames dom0 [⟨0, 0, 30⟩, ⟨1, 50, 90⟩] [100]).2.2).length = 2 := by
  constructor <;>
    norm_num [dom0, runFrames, stepFrame, applyRun, labelVal, jround, easeOut]

/-- Claim C1, amended. No run is ever invalidated: a superseded run keeps
writing frames until its own duration elapses. But convergence still
holds: for two runs of the shared 1000ms duration where the newer run
(listed second, as `requestAnimationFrame` queues it after the in-flight
one) starts no earlier than the older, once any frame at or past the
newer run's end time occurs, the DOM has settled on the newer target's
exact label and offset — the newer run finalizes later, and inside a
shared frame its write lands after the older run's. -/
theorem c1_superseding (ts : List ℚ) (r1 r2 : Run) (d : Dom)
    (hstart : r1.start ≤ r2.start) (h : ∃ t ∈ ts, r2.start + 1000 ≤ t) :
    (runFrames d [r1, r2] ts).1.label = labelVal r2.target ∧
    (runFrames d [r1, r2] ts).1.offFrac = some (1 - r2.target / 100) := by
  induction ts generalizing d with
  | nil => simp at h
  | cons t ts ih =>
    by_cases hdone2 : r2.start + 1000 ≤ t
    · have hdone1 : r1.start + 1000 ≤ t := by linarith
      rw [runFrames_cons, stepFrame_cons]
      simp only [applyRun_done t r1 hdone1, applyRun_done t r2 hdone2,
        stepFrame_cons, stepFrame]
      rw [runFrames_noRuns ts]
      exact ⟨rfl, rfl⟩
    · obtain ⟨t0, ht0, hle⟩ := h
      have ht0' : t0 ∈ ts := by
        rcases List.mem_cons.mp ht0 with rfl | h'
        · exact absurd hle hdone2
        · exact h'
      have h2act := applyRun_active t r2 (not_le.mp hdone2)
      by_cases hdone1 : r1.start + 1000 ≤ t
      · rw [runFrames_cons, stepFrame_cons]
        simp only [applyRun_done t r1 hdone1, stepFrame_cons, stepFrame, h2act]
        exact ⟨(runFrames_single_settles r2 ts _ ⟨t0, ht0', hle⟩).1,
          (runFrames_single_settles r2 ts _ ⟨t0, ht0', hle⟩).2.1⟩
      · have h1act := applyRun_active t r1 (not_le.mp hdone1)
        rw [runFrames_cons, stepFrame_cons]
        simp only [h1act, stepFrame_cons, stepFrame, h2act]
        exact ih _ ⟨t0, ht0', hle⟩

/-- Witness for the amended C1 theorem: run 30-at-0 superseded by run
90-at-100; after the frame at 1200 the DOM shows exactly 90. -/
theorem c1_witness :
    (runFrames dom0 [⟨0, 0, 30⟩, ⟨1, 100, 90⟩] [1200]).1.label = labelVal 90 ∧
    (runFrames dom0 [⟨0, 0, 30⟩, ⟨1, 100, 90⟩] [1200]).1.offFrac = some (1 - 90 / 100) :=
  c1_superseding [1200] ⟨0, 0, 30⟩ ⟨1, 100, 90⟩ dom0 (by norm_num)
    ⟨1200, by simp, by norm_num⟩

/-- Claim C2, counterexample. The claim says each frame shows
`startValue + (target - startValue) * eased(t)` with `startValue` the
value displayed when the run began (0 only on the first run). After a
first run settles at 30, a second run to 90 at its half-way frame shows
`round(90 * eased(1/2)) = 79`, not the claimed
`round(30 + (90 - 30) * eased(1/2)) = 83`. -/
theorem c2_counterexample :
    (runFrames dom0 [⟨0, 0, 30⟩] [1000]).1.label = 30 ∧
    (runFrames (runFrames dom0 [⟨0, 0, 30⟩] [1000]).1 [⟨1, 1000, 90⟩] [1500]).1.label = 79 ∧
    labelVal (30 + (90 - 30) * easeOut (1/2)) = 83 ∧ (79 : ℤ) ≠ 83 := by
  refine ⟨?_, ?_, ?_, by decide⟩ <;>
    norm_num [dom0, runFrames, stepFrame, applyRun, labelVal, jround, easeOut]

/-- Claim C2, amended. The displayed value during a run is the time-eased
interpolation from the hard-coded start value 0 to the target —
`0 + (target - 0) * (1 - (1 - t)^3)` — regardless of what was displayed
before: the mid-run frame output is independent of the prior DOM state. -/
theorem c2_zero_start (r : Run) (d d' : Dom) (t : ℚ)
    (h1 : r.start ≤ t) (h2 : t < r.start + 1000) :
    (runFrames d [r] [t]).1.label =
      labelVal (0 + (r.target - 0) * easeOut (min ((t - r.start) / 1000) 1)) ∧
    (runFrames d [r] [t]).1.offFrac = some (1 - runShown r t / 100) ∧
    (runFrames d [r] [t]).1.label = (runFrames d' [r] [t]).1.label ∧
    (runFrames d [r] [t]).1.offFrac = (runFrames d' [r] [t]).1.offFrac := by
  simp only [runFrames_cons, stepFrame_cons, applyRun_mid t r h1 h2, stepFrame, runFrames]
  simp [runShown]

/-- Witness for the amended C2 theorem: a run to 90 at its half-way
frame shows `round(90 * (7/8)) = 79` from two different prior states. -/
theorem c2_witness :
    (runFrames dom0 [⟨1, 1000, 90⟩] [1500]).1.label =
      labelVal (0 + (90 - 0) * easeOut (min ((1500 - 1000) / 1000) 1)) ∧
    (runFrames dom0 [⟨1, 1000, 90⟩] [1500]).1.offFrac =
      some (1 - runShown ⟨1, 1000, 90⟩ 1500 / 100) ∧
    (runFrames dom0 [⟨1, 1000, 90⟩] [1500]).1.label =
      (runFrames ⟨none, none, 30, none⟩ [⟨1, 1000, 90⟩] [1500]).1.label ∧
    (runFrames dom0 [⟨1, 1000, 90⟩] [1500]).1.offFrac =
      (runFrames ⟨none, none, 30, none⟩ [⟨1, 1000, 90⟩] [1500]).1.offFrac :=
  c2_zero_start ⟨1, 1000, 90⟩ dom0 ⟨none, none, 30, none⟩ 1500 (by norm_num) (by norm_num)

/-- Claim C3, counterexample. The claim says the effective target is
clamped to [0, 100]. The code performs no clamping: `updateProgressCircle(150)`
starts a run with target exactly 150 and the animation settles at label
150 (and `parseFloat || 0` lets the negative input -5 through unchanged). -/
theorem c3_counterexample :
    (updateProgressCircle 1 150 0 fullPage).2 = some ⟨1, 0, 150⟩ ∧
    (100 : ℚ) < 150 ∧
    (runFrames (updateProgressCircle 1 150 0 fullPage).1.dom [⟨1, 0, 150⟩] [1000]).1.label = 150 ∧
    (150 : ℤ) ≠ 100 ∧
    progressValueOf (some (-5)) = -5 ∧ (-5 : ℚ) ≠ 0 := by
    refine ⟨?_, by norm_num, ?_, by decide, by norm_num [progressValueOf], by norm_num⟩ <;>
      norm_num [updateProgressCircle, fullPage, dom0, progressLevel, runFrames, stepFrame,
        applyRun, labelVal, jround, easeOut]

/-- Claim C3, amended. Non-numeric input is treated as 0 (the confirmed
half), but no clamping happens anywhere: both entry points use the given
target as-is — the run's target, the level attribute, and hence the
settled label and offset all come from the raw value, even outside
[0, 100]. -/
theorem c3_no_clamping (rid : ℕ) (v now : ℚ) (p : Page)
    (h2 : p.hasCircle) (h3 : p.hasLabel) (h4 : p.hasContainer) :
    (updateProgressCircle rid v now p).2 = some ⟨rid, now, v⟩ ∧
    (updateProgressCircle rid v now p).1.dom.level = some (progressLevel v) ∧
    progressValueOf none = 0 ∧
    (∀ (d : Dom) (ts : List ℚ), (∃ t ∈ ts, now + 1000 ≤ t) →
      (runFrames d [⟨rid, now, v⟩] ts).1.label = labelVal v ∧
      (runFrames d [⟨rid, now, v⟩] ts).1.offFrac = some (1 - v / 100)) := by
  refine ⟨?_, ?_, rfl, fun d ts h => ?_⟩
  · simp [updateProgressCircle, h2, h3, h4]
  · simp [updateProgressCircle, h2, h3, h4]
  · have hs := runFrames_single_settles ⟨rid, now, v⟩ ts d h
    exact ⟨hs.1, hs.2.1⟩

/-- Witness for the amended C3 theorem at the over-range input 150. -/
theorem c3_witness :
    (updateProgressCircle 1 150 0 fullPage).2 = some ⟨1, 0, 150⟩ ∧
    (updateProgressCircle 1 150 0 fullPage).1.dom.level = some (progressLevel 150) ∧
    progressValueOf none = 0 ∧
    (runFrames dom0 [⟨1, 0, 150⟩] [1000]).1.label = labelVal 150 ∧
    (runFrames dom0 [⟨1, 0, 150⟩] [1000]).1.offFrac = some (1 - 150 / 100) := by
  have h := c3_no_clamping 1 150 0 fullPage (by decide) (by decide) (by decide)
  have h4 := h.2.2.2 dom0 [1000] ⟨1000, by simp, by norm_num⟩
  exact ⟨h.1, h.2.1, h.2.2.1, h4.1, h4.2⟩

/-- Claim C4 (confirmed): for every v in [0, 100], once the frame
sequence reaches `start + duration`, the DOM holds the exact final
values — label number `round(v)` (text `round(v) + '%'`) and offset
`circumference * (1 - v/100)`, i.e. `circumference - circumference*v/100`
— and the run has stopped scheduling frames (the active-run queue is
empty). -/
theorem c4_settles_exactly (i : ℕ) (s v : ℚ) (_hv0 : 0 ≤ v) (_hv1 : v ≤ 100)
    (d : Dom) (ts : List ℚ) (h : ∃ t ∈ ts, s + 1000 ≤ t) :
    (runFrames d [⟨i, s, v⟩] ts).1.label = jround v ∧
    (runFrames d [⟨i, s, v⟩] ts).1.offFrac = some (1 - v / 100) ∧
    (runFrames d [⟨i, s, v⟩] ts).2.2 = [] :=
  runFrames_single_settles ⟨i, s, v⟩ ts d h

/-- Witness for C4: `setProgress(73)` settles at exactly 73 after the
1000ms frame. -/
theorem c4_witness :
    (runFrames dom0 [⟨0, 0, 73⟩] [1000]).1.label = jround 73 ∧
    (runFrames dom0 [⟨0, 0, 73⟩] [1000]).1.offFrac = some (1 - 73 / 100) ∧
    (runFrames dom0 [⟨0, 0, 73⟩] [1000]).2.2 = [] :=
  c4_settles_exactly 0 0 73 (by norm_num) (by norm_num) dom0 [1000]
    ⟨1000, by simp, by norm_num⟩

/-- Claim C5 (confirmed): the level classification is a pure step
function — low below 40, medium on [40, 70), high on [70, 100), complete
at 100 — and the vault-dashboard duplicate classifies identically. -/
theorem c5_level_buckets (v : ℚ) :
    (v < 40 → progressLevel v = .low) ∧
    (40 ≤ v → v < 70 → progressLevel v = .medium) ∧
    (70 ≤ v → v < 100 → progressLevel v = .high) ∧
    (v = 100 → progressLevel v = .complete) ∧
    vaultLevel v = progressLevel v := by
  refine ⟨fun h => ?_, fun h1 h2 => ?_, fun h1 h2 => ?_, fun h => ?_, rfl⟩ <;>
    simp only [progressLevel] <;> split_ifs <;> first | rfl | linarith

/-- Witness for C5 at the claim's sample points
39.9, 40, 69.9, 70, 99.9, 100. -/
theorem c5_witness :
    progressLevel (399/10) = .low ∧ progressLevel 40 = .medium ∧
    progressLevel (699/10) = .medium ∧ progressLevel 70 = .high ∧
    progressLevel (999/10) = .high ∧ progressLevel 100 = .complete :=
  ⟨(c5_level_buckets _).1 (by norm_num),
   (c5_level_buckets _).2.1 (by norm_num) (by norm_num),
   (c5_level_buckets _).2.1 (by norm_num) (by norm_num),
   (c5_level_buckets _).2.2.1 (by norm_num) (by norm_num),
   (c5_level_buckets _).2.2.1 (by norm_num) (by norm_num),
   (c5_level_buckets _).2.2.2.1 rfl⟩

/-- Claim C6, counterexample. The claim says the per-frame classification
or colour is always computed from the run's target. In
`animateVaultProgress` (vault-dashboard.js) the colour is computed from
the rounded *interpolated* value: animating to 90 (a high/green target),
the frame at 100ms of the 2000ms run shows the below-40 colour. -/
theorem c6_counterexample :
    vaultFrameColor 90 0 100 = "#FF2B2B" ∧
    textColorOf 90 = "#19FF5A" ∧
    vaultFrameColor 90 0 100 ≠ textColorOf 90 ∧
    vaultLevel 90 = .high := by
  have h1 : vaultFrameColor 90 0 100 = "#FF2B2B" := by
    norm_num [vaultFrameColor, vaultFrameValue, textColorOf, jround, easeOut]
  have h2 : textColorOf 90 = "#19FF5A" := by norm_num [textColorOf]
  refine ⟨h1, h2, ?_, by norm_num [vaultLevel]⟩
  rw [h1, h2]; decide

/-- Claim C6, amended. In progress.js the `data-progress-level`
attribute is computed from the (unclamped) target, once, before the
animation starts, and no frame callback ever rewrites it — so during the
whole run it equals `level(target)`. In the vault-dashboard scripts,
however, the per-frame text colour is computed from the rounded
interpolated value, not from the target. -/
theorem c6_level_from_target (rid : ℕ) (v now : ℚ) (p : Page)
    (h2 : p.hasCircle) (h3 : p.hasLabel) (h4 : p.hasContainer) :
    (∀ (runs : List Run) (ts : List ℚ),
      (runFrames (updateProgressCircle rid v now p).1.dom runs ts).1.level =
        some (progressLevel v)) ∧
    (∀ target start t : ℚ,
      vaultFrameColor target start t =
        textColorOf ((jround (target * easeOut (min ((t - start) / 2000) 1)) : ℤ) : ℚ)) := by
  constructor
  · intro runs ts
    rw [runFrames_level]
    simp [updateProgressCircle, h2, h3, h4]
  · intro target start t
    rfl

/-- Witness for the amended C6 theorem: after `updateProgressCircle(90)`
and two animation frames the attribute still reads the target's level. -/
theorem c6_witness :
    (runFrames (updateProgressCircle 1 90 0 fullPage).1.dom [⟨1, 0, 90⟩] [100, 2000]).1.level =
      some (progressLevel 90) ∧
    vaultFrameColor 90 0 100 =
      textColorOf ((jround (90 * easeOut (min ((100 - 0) / 2000) 1)) : ℤ) : ℚ) :=
  ⟨(c6_level_from_target 1 90 0 fullPage (by decide) (by decide) (by decide)).1
      [⟨1, 0, 90⟩] [100, 2000],
   (c6_level_from_target 1 90 0 fullPage (by decide) (by decide) (by decide)).2 90 0 100⟩

/-- Claim C7 (confirmed): when the arc element, the label element or the
container is missing, construction returns before touching the DOM or
scheduling an animation (a no-op that leaves the page exactly as it
was), and any subsequent `updateProgressCircle` call is the same no-op.
Both operations are total functions of the page state, so neither can
throw. -/
theorem c7_missing_noop (p : Page) (now : ℚ)
    (h : ¬ p.hasCircle ∨ ¬ p.hasLabel ∨ ¬ p.hasContainer) :
    initProgressCircle now p = (p, none) ∧
    ∀ (rid : ℕ) (v now2 : ℚ), updateProgressCircle rid v now2 p = (p, none) := by
  constructor
  · rcases h with h | h | h <;> by_cases hi : p.hasInput <;>
      simp [initProgressCircle, h, hi]
  · intro rid v now2
    rcases h with h | h | h <;> simp [updateProgressCircle, h]

/-- Witness for C7 on a page whose arc element is missing. -/
theorem c7_witness :
    initProgressCircle 0 noCirclePage = (noCirclePage, none) ∧
    updateProgressCircle 1 50 0 noCirclePage = (noCirclePage, none) :=
  ⟨(c7_missing_noop noCirclePage 0 (Or.inl (by decide))).1,
   (c7_missing_noop noCirclePage 0 (Or.inl (by decide))).2 1 50 0⟩

/-- Claim C8, counterexample. The claim says the widget renders as 0%
immediately after construction: empty arc *and* label text `0%`. The
init code sets the dash geometry but never writes the label text: on a
page whose server-rendered label shows 73, the label still shows 73
right after construction. -/
theorem c8_counterexample :
    (initProgressCircle 0 stalePage).1.dom.offFrac = some 1 ∧
    (initProgressCircle 0 stalePage).1.dom.label = 73 ∧ (73 : ℤ) ≠ 0 := by
  refine ⟨?_, ?_, by decide⟩ <;>
    norm_num [initProgressCircle, stalePage, progressValueOf, progressLevel]

/-- Claim C8, amended. Immediately after construction and before any
animation frame, the arc is in the empty stroke state — dash array and
dash offset both equal the full circumference — but the label text is
left untouched (whatever the server rendered) until the first frame. -/
theorem c8_empty_arc (p : Page) (now : ℚ)
    (h1 : p.hasInput) (h2 : p.hasCircle) (h3 : p.hasLabel) (h4 : p.hasContainer) :
    (initProgressCircle now p).1.dom.dashArray = some 1 ∧
    (initProgressCircle now p).1.dom.offFrac = some 1 ∧
    (initProgressCircle now p).1.dom.label = p.dom.label := by
  refine ⟨?_, ?_, ?_⟩ <;> simp [initProgressCircle, h1, h2, h3, h4]

/-- Witness for the amended C8 theorem on the stale-label page. -/
theorem c8_witness :
    (initProgressCircle 0 stalePage).1.dom.dashArray = some 1 ∧
    (initProgressCircle 0 stalePage).1.dom.offFrac = some 1 ∧
    (initProgressCircle 0 stalePage).1.dom.label = stalePage.dom.label :=
  c8_empty_arc stalePage 0 (by decide) (by decide) (by decide) (by decide)

theorem targetOf_pos (k : CKey) : 0 < targetOf k := by
  cases k <;> norm_num [targetOf]

theorem weightOf_nonneg (k : CKey) : 0 ≤ weightOf k := by
  cases k <;> norm_num [weightOf]

theorem itemProgress_le_weight (counts : CKey → Option ℚ) (k : CKey) :
    itemProgress counts k ≤ weightOf k := by
  have h1 : min ((counts k).getD 0 / targetOf k) 1 ≤ 1 := min_le_right _ _
  calc itemProgress counts k
      = min ((counts k).getD 0 / targetOf k) 1 * weightOf k := rfl
    _ ≤ 1 * weightOf k := mul_le_mul_of_nonneg_right h1 (weightOf_nonneg k)
    _ = weightOf k := one_mul _

theorem itemProgress_nonneg (counts : CKey → Option ℚ) (k : CKey)
    (h : 0 ≤ (counts k).getD 0) : 0 ≤ itemProgress counts k :=
  mul_nonneg (le_min (div_nonneg h (targetOf_pos k).le) zero_le_one) (weightOf_nonneg k)

/-- Claim C9 (confirmed): for every counts map with non-negative values,
`calculateProgress` returns an integer in [0, 100]; an absent key
contributes 0 and each category's contribution is capped at its weight
(the weights sum to 1), so the result never exceeds 100 however large
the counts are. -/
theorem c9_progress_bounds (counts : CKey → Option ℚ)
    (h : ∀ k, 0 ≤ (counts k).getD 0) :
    0 ≤ calculateProgress counts ∧ calculateProgress counts ≤ 100 ∧
    (∀ k, counts k = none → itemProgress counts k = 0) ∧
    (∀ k, itemProgress counts k ≤ weightOf k) := by
  have hlo : ∀ k, 0 ≤ itemProgress counts k := fun k => itemProgress_nonneg counts k (h k)
  have hhi : ∀ k, itemProgress counts k ≤ weightOf k := itemProgress_le_weight counts
  have habs : ∀ k, counts k = none → itemProgress counts k = 0 := by
    intro k hk
    simp [itemProgress, hk, min_eq_left zero_le_one]
  have hwsum : weightOf .accounts + weightOf .devices + weightOf .contacts +
      weightOf .estates + weightOf .documents + weightOf .family_knows +
      weightOf .care_relations = 1 := by norm_num [weightOf]
  have hT0 : 0 ≤ criteriaKeys.foldl (fun acc k => acc + itemProgress counts k) 0 := by
    simp only [criteriaKeys, List.foldl]
    linarith [hlo .accounts, hlo .devices, hlo .contacts, hlo .estates,
      hlo .documents, hlo .family_knows, hlo .care_relations]
  have hT1 : criteriaKeys.foldl (fun acc k => acc + itemProgress counts k) 0 ≤ 1 := by
    simp only [criteriaKeys, List.foldl]
    linarith [hhi .accounts, hhi .devices, hhi .contacts, hhi .estates,
      hhi .documents, hhi .family_knows, hhi .care_relations]
  refine ⟨?_, ?_, habs, hhi⟩
  · refine Int.le_floor.mpr ?_
    push_cast
    linarith
  · have hfl : (calculateProgress counts : ℤ) < 101 := by
      refine Int.floor_lt.mpr ?_
      push_cast
      linarith
    exact Int.lt_add_one_iff.mp hfl

/-- Witness for C9 on a concrete counts map (one key absent, others 5). -/
theorem c9_witness :
    0 ≤ calculateProgress exCounts ∧ calculateProgress exCounts ≤ 100 ∧
    itemProgress exCounts CKey.care_relations = 0 ∧
    itemProgress exCounts CKey.accounts ≤ weightOf CKey.accounts := by
  have hmain := c9_progress_bounds exCounts (fun k => by cases k <;> norm_num [exCounts])
  exact ⟨hmain.1, hmain.2.1, hmain.2.2.1 _ rfl, hmain.2.2.2 _⟩

theorem le_foldl_max : ∀ (xs : List ℚ) (a : ℚ), a ≤ xs.foldl max a
  | [], a => le_refl a
  | y :: ys, a => le_trans (le_max_left a y) (le_foldl_max ys (max a y))

/-- The `Math.max` of a non-empty list of positive values is positive. -/
theorem jsMaxValue_pos (l : List ℚ) (hpos : ∀ x ∈ l, 0 < x) (hne : l ≠ []) :
    0 < jsMaxValue l := by
  cases l with
  | nil => exact absurd rfl hne
  | cons x xs =>
    exact lt_of_lt_of_le (hpos x (List.mem_cons_self x xs)) (le_foldl_max xs x)

/-- Every item the `createAccountCategoriesChart` pipeline keeps has a
positive value and comes from an entry of the input map. -/
theorem mem_accountCategoriesData {categories : List (String × ℚ)} {item : BarItem}
    (h : item ∈ accountCategoriesData categories) :
    0 < item.value ∧
      ∃ kv ∈ categories, item.label = formatCategoryLabel kv.1 ∧ item.value = kv.2 := by
  simp only [accountCategoriesData] at h
  have h1 := List.mem_of_mem_take h
  rw [List.mem_mergeSort, List.mem_filter] at h1
  obtain ⟨h2, h3⟩ := h1
  simp only [List.mem_map] at h2
  obtain ⟨kv, hkv, rfl⟩ := h2
  exact ⟨of_decide_eq_true h3, kv, hkv, rfl, rfl⟩

/-- The pipeline output is sorted by value, non-increasing. -/
theorem accountCategoriesData_sorted (categories : List (String × ℚ)) :
    (accountCategoriesData categories).Pairwise (fun a b => b.value ≤ a.value) := by
  have hs := @List.sorted_mergeSort BarItem
    (fun a b : BarItem => decide (b.value ≤ a.value))
    (fun a b c h1 h2 => by
      rw [decide_eq_true_iff] at *
      exact le_trans h2 h1)
    (fun a b => by
      rcases le_total a.value b.value with h | h <;> simp [h])
    ((categories.map fun kv =>
        ({ label := formatCategoryLabel kv.1, value := kv.2 } : BarItem)).filter
      fun item => 0 < item.value)
  have hs' := hs.imp fun h => of_decide_eq_true h
  exact List.Pairwise.sublist (List.take_sublist _ _) hs'

/-- Map `renderBars` preserves the value column. -/
theorem renderBars_values (data : List BarItem) :
    (renderBars data).map (fun b => b.value) = data.map fun item => item.value := by
  simp [renderBars]

/-- Claim C10 (confirmed): `createAccountCategoriesChart` renders at most
10 bars; every bar stems from an entry with positive value; the bars are
sorted by value, non-increasing; on a non-empty chart the rendering
maximum is positive (so the percentage branch never divides by zero) and
every bar's `data-value` percentage is its value divided by the maximum
rendered value times 100. -/
theorem c10_bar_chart (categories : List (String × ℚ)) :
    (createAccountCategoriesChart categories).length ≤ 10 ∧
    (∀ b ∈ createAccountCategoriesChart categories,
      0 < b.value ∧ ∃ kv ∈ categories, b.label = formatCategoryLabel kv.1 ∧ b.value = kv.2) ∧
    ((createAccountCategoriesChart categories).map fun b => b.value).Pairwise
      (fun a b => b ≤ a) ∧
    (createAccountCategoriesChart categories ≠ [] →
      0 < jsMaxValue ((accountCategoriesData categories).map fun item => item.value)) ∧
    (∀ b ∈ createAccountCategoriesChart categories,
      b.pct = b.value /
        jsMaxValue ((accountCategoriesData categories).map fun item => item.value) * 100) := by
  have hmemData : ∀ x ∈ (accountCategoriesData categories).map (fun item => item.value),
      0 < x := by
    intro x hx
    simp only [List.mem_map] at hx
    obtain ⟨item, hi, rfl⟩ := hx
    exact (mem_accountCategoriesData hi).1
  have hmax : createAccountCategoriesChart categories ≠ [] →
      0 < jsMaxValue ((accountCategoriesData categories).map fun item => item.value) := by
    intro hne
    refine jsMaxValue_pos _ hmemData ?_
    cases hd : accountCategoriesData categories with
    | nil => exact absurd (by simp [createAccountCategoriesChart, renderBars, hd]) hne
    | cons a l => simp [hd]
  refine ⟨?_, ?_, ?_, hmax, ?_⟩
  · have hlen : (createAccountCategoriesChart categories).length =
        (accountCategoriesData categories).length := by
      simp [createAccountCategoriesChart, renderBars]
    rw [hlen]
    simp only [accountCategoriesData, List.length_take]
    exact min_le_left _ _
  · intro b hb
    simp only [createAccountCategoriesChart, renderBars, List.mem_map] at hb
    obtain ⟨item, hi, rfl⟩ := hb
    obtain ⟨hpos, kv, hkv, hl, hv⟩ := mem_accountCategoriesData hi
    exact ⟨hpos, kv, hkv, hl, hv⟩
  · simp only [createAccountCategoriesChart]
    rw [renderBars_values, List.pairwise_map]
    exact accountCategoriesData_sorted categories
  · intro b hb
    have hne : createAccountCategoriesChart categories ≠ [] := by
      intro h0
      rw [h0] at hb
      exact absurd hb (List.not_mem_nil b)
    have hpos := hmax hne
    simp only [createAccountCategoriesChart, renderBars, List.mem_map] at hb
    obtain ⟨item, hi, rfl⟩ := hb
    simp only [if_pos hpos]

/-- Witness for C10 at a concrete categories map: the chart keeps the two
positive entries, the larger first at 100 percent. -/
theorem c10_witness :
    (createAccountCategoriesChart exCats).length ≤ 10 ∧
    (0 < (⟨"Social", 7, 100⟩ : RenderedBar).value ∧
      ∃ kv ∈ exCats, (⟨"Social", 7, 100⟩ : RenderedBar).label = formatCategoryLabel kv.1 ∧
        (⟨"Social", 7, 100⟩ : RenderedBar).value = kv.2) ∧
    (⟨"Social", 7, 100⟩ : RenderedBar).pct =
      (⟨"Social", 7, 100⟩ : RenderedBar).value /
        jsMaxValue ((accountCategoriesData exCats).map fun item => item.value) * 100 := by
  have hcomp : createAccountCategoriesChart exCats =
      [⟨"Social", 7, 100⟩, ⟨"Bank", 5, 500/7⟩] := by
    norm_num [createAccountCategoriesChart, accountCategoriesData, renderBars, jsMaxValue,
      formatCategoryLabel, capitalizeFirst, joinSpace, splitOnChar, List.mergeSort,
      List.filter, exCats]
    decide
  have h := c10_bar_chart exCats
  have hmem : (⟨"Social", 7, 100⟩ : RenderedBar) ∈ createAccountCategoriesChart exCats := by
    rw [hcomp]
    exact List.mem_cons_self _ _
  exact ⟨h.1, h.2.1 _ hmem, h.2.2.2.2 _ hmem⟩

example : progressLevel 39 = .low := by norm_num [progressLevel]
example : labelVal (90 * easeOut (7/8)) = 90 := by norm_num [labelVal, jround, easeOut]
example : (applyRun 100 ⟨none, none, 0, none⟩ ⟨0, 0, 30⟩).1.label = 8 := by
  norm_num [applyRun, labelVal, jround, easeOut]
example : vaultFrameColor 90 0 100 = "#FF2B2B" := by
  norm_num [vaultFrameColor, vaultFrameValue, textColorOf, jround, easeOut]
example : (runFrames ⟨none, none, 0, none⟩ [⟨0, 0, 30⟩, ⟨1, 0, 90⟩] [100, 200]).2.1.map
    (fun w => (w.runId, w.time)) = [(0, 100), (1, 100), (0, 200), (1, 200)] := by
  norm_num [runFrames, stepFrame, applyRun, labelVal, jround, easeOut]
example : calculateProgress (fun _ => some 5) = 88 := by
  norm_num [calculateProgress, criteriaKeys, itemProgress, weightOf, targetOf, jround]
example : calculateProgress (fun _ => none) = 0 := by
  norm_num [calculateProgress, criteriaKeys, itemProgress, weightOf, targetOf, jround]
example :
    createAccountCategoriesChart [("bank", 5), ("email_apps", 0), ("social", 7)] =
      [⟨"Social", 7, 100⟩, ⟨"Bank", 5, 500/7⟩] := by
  norm_num [createAccountCategoriesChart, accountCategoriesData, renderBars, jsMaxValue,
    formatCategoryLabel, capitalizeFirst, joinSpace, splitOnChar, List.mergeSort, List.filter]
  decide
